import Mathlib

/-!
Verification of the schema_registry_converter repository against its
natural-language specification.

The development shallowly embeds the Rust sources:

* `Payload` — the wire framing codec of
  `schema-registry-serde/src/payload.rs` (also duplicated in
  `schema-registry-serde/src/lib.rs`): `insert_magic_byte_and_id` and
  `extract_id_and_payload`.
* `Client` — the data model (`types.rs`, `config.rs`, `error.rs`) and the
  cached registry client (`client/cached.rs`, `client/util.rs`).
  Machine integers (`u32`) are embedded as `Nat` with explicit `< 2 ^ 32`
  bounds where they matter; byte buffers are `List Nat`; the concurrent
  `DashMap` caches are association lists where an insert conses the new
  binding in front (lookup returns the most recent binding, matching
  `DashMap::insert` replacement semantics); the nondeterministic completion
  order of the raced replica HTTP requests is made explicit as a list of
  results in completion order.
* `JsonSerde` / `AvroSerde` — the schema-resolution and validation-handling
  skeletons of the JSON Schema and Avro codecs
  (`schema-registry-serde-json/src/serializer.rs`, `.../error.rs`,
  `schema-registry-serde-avro/src/serializer.rs`, `.../deserializer.rs`).
  External collaborators (the jsonschema validator, the Avro parser, the
  HTTP transport) enter as explicit parameters: the embedded functions
  receive the collaborator results and are proved correct for every such
  result.
-/

namespace Payload

/-- `pub const MAGIC_BYTE: u8 = 0;` -/
def MAGIC_BYTE : Nat := 0

/-- `pub const PAYLOAD_OFFSET: usize = 5;` -/
def PAYLOAD_OFFSET : Nat := 5

/-- The four big-endian bytes of a `u32`, as produced by `id.to_be_bytes()`. -/
def u32_to_be_bytes (id : Nat) : List Nat :=
  [id / 2 ^ 24 % 256, id / 2 ^ 16 % 256, id / 2 ^ 8 % 256, id % 256]

/-- `u32::from_be_bytes([b0, b1, b2, b3])`. -/
def u32_from_be_bytes (b0 b1 b2 b3 : Nat) : Nat :=
  b0 * 2 ^ 24 + b1 * 2 ^ 16 + b2 * 2 ^ 8 + b3

/-- Result of extracting the framing header (`struct Extracted`). -/
structure Extracted where
  schema_id : Nat
  payload : List Nat
deriving DecidableEq

/-- `enum ExtractError` from `payload.rs`. -/
inductive ExtractError where
  | EmptyData
  | InvalidMagicByte
  | InvalidDataLength
deriving DecidableEq

/-- `pub fn extract_id_and_payload(data: Option<&[u8]>)`: fail on absent
input, on fewer than 5 bytes, on a wrong magic byte (`data[0]`); otherwise
read the big-endian id from bytes 1..5 and return the rest as payload. -/
def extract_id_and_payload (data : Option (List Nat)) :
    Except ExtractError Extracted :=
  match data with
  | none => .error .EmptyData
  | some d =>
    if d.length < 5 then .error .InvalidDataLength
    else if d.getD 0 0 ≠ MAGIC_BYTE then .error .InvalidMagicByte
    else .ok ⟨u32_from_be_bytes (d.getD 1 0) (d.getD 2 0) (d.getD 3 0) (d.getD 4 0),
              d.drop PAYLOAD_OFFSET⟩

/-- `pub fn insert_magic_byte_and_id(id: u32, payload: &[u8]) -> Vec<u8>`:
a 5-byte header (magic byte, then the id big-endian) followed by the
payload verbatim. -/
def insert_magic_byte_and_id (id : Nat) (payload : List Nat) : List Nat :=
  MAGIC_BYTE :: u32_to_be_bytes id ++ payload

theorem u32_be_roundtrip (id : Nat) (h : id < 2 ^ 32) :
    u32_from_be_bytes (id / 2 ^ 24 % 256) (id / 2 ^ 16 % 256)
      (id / 2 ^ 8 % 256) (id % 256) = id := by
  unfold u32_from_be_bytes
  omega

theorem extract_of_header (a b c d : Nat) (p : List Nat) :
    extract_id_and_payload (some ((0 : Nat) :: a :: b :: c :: d :: p)) =
      .ok ⟨u32_from_be_bytes a b c d, p⟩ := by
  have h1 : ¬ ((0 : Nat) :: a :: b :: c :: d :: p).length < 5 := by
    simp only [List.length_cons]
    omega
  have h2 : ¬ (((0 : Nat) :: a :: b :: c :: d :: p).getD 0 0 ≠ MAGIC_BYTE) := by
    simp [MAGIC_BYTE]
  simp only [extract_id_and_payload, if_neg h1, if_neg h2]
  rfl

end Payload

/-- C1: for every `id < 2^32` and byte list `p`, the framed buffer has
length `5 + len p`, starts with the magic byte `0`, carries `id` big-endian
in bytes 1..5 and `p` verbatim from byte 5 on, and
`extract_id_and_payload` recovers exactly `(id, p)` from it. -/
theorem C1_framing_roundtrip (id : Nat) (p : List Nat) (h : id < 2 ^ 32) :
    (Payload.insert_magic_byte_and_id id p).length = 5 + p.length ∧
    (Payload.insert_magic_byte_and_id id p).getD 0 0 = 0 ∧
    ((Payload.insert_magic_byte_and_id id p).drop 1).take 4 =
      Payload.u32_to_be_bytes id ∧
    (Payload.insert_magic_byte_and_id id p).drop 5 = p ∧
    Payload.extract_id_and_payload (some (Payload.insert_magic_byte_and_id id p)) =
      .ok ⟨id, p⟩ := by
  refine ⟨?_, rfl, rfl, rfl, ?_⟩
  · simp only [Payload.insert_magic_byte_and_id, Payload.u32_to_be_bytes,
      List.cons_append, List.length_cons, List.length_append, List.length_nil]
    omega
  · show Payload.extract_id_and_payload
      (some ((0 : Nat) :: (id / 2 ^ 24 % 256) :: (id / 2 ^ 16 % 256) ::
        (id / 2 ^ 8 % 256) :: (id % 256) :: p)) = _
    rw [Payload.extract_of_header, Payload.u32_be_roundtrip id h]

/-- C1 witness: the round trip at the concrete input `id = 7`,
`p = [0xDE, 0xAD]`. -/
theorem C1_framing_roundtrip_witness :
    7 < 2 ^ 32 ∧
    ((Payload.insert_magic_byte_and_id 7 [222, 173]).length = 5 + 2 ∧
     (Payload.insert_magic_byte_and_id 7 [222, 173]).getD 0 0 = 0 ∧
     ((Payload.insert_magic_byte_and_id 7 [222, 173]).drop 1).take 4 =
       Payload.u32_to_be_bytes 7 ∧
     (Payload.insert_magic_byte_and_id 7 [222, 173]).drop 5 = [222, 173] ∧
     Payload.extract_id_and_payload
       (some (Payload.insert_magic_byte_and_id 7 [222, 173])) = .ok ⟨7, [222, 173]⟩) := by
  refine ⟨by decide, ?_⟩
  have h := C1_framing_roundtrip 7 [222, 173] (by decide)
  simpa using h

/-- C2: `extract_id_and_payload` fails with `EmptyData` exactly on absent
input, with `InvalidDataLength` exactly on fewer than 5 bytes, with
`InvalidMagicByte` exactly on a long-enough buffer whose first byte is not
`0`; otherwise it succeeds with the big-endian `u32` read from bytes 1..5
and the (possibly empty) payload from byte 5 on. -/
theorem C2_extract_error_characterization (data : Option (List Nat)) :
    (Payload.extract_id_and_payload data = .error .EmptyData ↔ data = none) ∧
    (Payload.extract_id_and_payload data = .error .InvalidDataLength ↔
      ∃ d, data = some d ∧ d.length < 5) ∧
    (Payload.extract_id_and_payload data = .error .InvalidMagicByte ↔
      ∃ d, data = some d ∧ 5 ≤ d.length ∧ d.getD 0 0 ≠ 0) ∧
    (∀ d, data = some d → 5 ≤ d.length → d.getD 0 0 = 0 →
      Payload.extract_id_and_payload data =
        .ok ⟨Payload.u32_from_be_bytes (d.getD 1 0) (d.getD 2 0) (d.getD 3 0) (d.getD 4 0),
             d.drop 5⟩) := by
  refine ⟨?_, ?_, ?_, ?_⟩
  · cases data with
    | none => simp [Payload.extract_id_and_payload]
    | some d =>
      simp only [Payload.extract_id_and_payload]
      constructor
      · intro h
        by_cases hlen : d.length < 5
        · rw [if_pos hlen] at h
          simp at h
        · rw [if_neg hlen] at h
          by_cases hmb : d.getD 0 0 ≠ Payload.MAGIC_BYTE
          · rw [if_pos hmb] at h
            simp at h
          · rw [if_neg hmb] at h
            simp at h
      · intro h
        simp at h
  · cases data with
    | none => simp [Payload.extract_id_and_payload]
    | some d =>
      simp only [Payload.extract_id_and_payload]
      constructor
      · intro h
        refine ⟨d, rfl, ?_⟩
        by_contra hlen
        rw [if_neg hlen] at h
        by_cases hmb : d.getD 0 0 ≠ Payload.MAGIC_BYTE
        · rw [if_pos hmb] at h
          simp at h
        · rw [if_neg hmb] at h
          simp at h
      · rintro ⟨d', hd', hlen⟩
        cases hd'
        rw [if_pos hlen]
  · cases data with
    | none => simp [Payload.extract_id_and_payload]
    | some d =>
      simp only [Payload.extract_id_and_payload]
      constructor
      · intro h
        by_cases hlen : d.length < 5
        · rw [if_pos hlen] at h
          simp at h
        · rw [if_neg hlen] at h
          by_cases hmb : d.getD 0 0 ≠ Payload.MAGIC_BYTE
          · exact ⟨d, rfl, by omega, by simpa [Payload.MAGIC_BYTE] using hmb⟩
          · rw [if_neg hmb] at h
            simp at h
      · rintro ⟨d', hd', hlen, hmb⟩
        cases hd'
        rw [if_neg (by omega), if_pos (by simpa [Payload.MAGIC_BYTE] using hmb)]
  · rintro d rfl hlen hmb
    simp only [Payload.extract_id_and_payload]
    rw [if_neg (by omega), if_neg (by simp only [Payload.MAGIC_BYTE, ne_eq, not_not]; exact hmb)]
    rfl

/-- C2 witness: concrete instances of each branch — success on a 6-byte
framed buffer, and each of the three failure shapes. -/
theorem C2_extract_error_characterization_witness :
    Payload.extract_id_and_payload (some [0, 0, 0, 0, 7, 222]) = .ok ⟨7, [222]⟩ ∧
    Payload.extract_id_and_payload none = .error .EmptyData ∧
    Payload.extract_id_and_payload (some [0, 0]) = .error .InvalidDataLength ∧
    Payload.extract_id_and_payload (some [1, 0, 0, 0, 7]) = .error .InvalidMagicByte := by
  refine ⟨?_, ?_, ?_, ?_⟩
  · have h := (C2_extract_error_characterization (some [0, 0, 0, 0, 7, 222])).2.2.2
      [0, 0, 0, 0, 7, 222] rfl (by decide) rfl
    simpa [Payload.u32_from_be_bytes] using h
  · exact (C2_extract_error_characterization none).1.mpr rfl
  · exact (C2_extract_error_characterization (some [0, 0])).2.1.mpr ⟨[0, 0], rfl, by decide⟩
  · exact (C2_extract_error_characterization (some [1, 0, 0, 0, 7])).2.2.1.mpr
      ⟨[1, 0, 0, 0, 7], rfl, by decide, by decide⟩

namespace Client

/-- `enum SchemaType` from `types.rs`. -/
inductive SchemaType where
  | Avro
  | Protobuf
  | Json
deriving DecidableEq

/-- `enum Version`: `Latest` or a numeric version (constructed by the serde
crates as `Version::Number(reference.version)`). -/
inductive Version where
  | Latest
  | Number (n : Nat)
deriving DecidableEq

/-- `struct Schema` from `types.rs`. -/
structure Schema where
  schema_type : SchemaType
  schema : String
deriving DecidableEq

/-- `struct Subject` from `types.rs`: a registered subject version as the
registry returns it, with `subject` the canonical subject name. -/
structure Subject where
  id : Nat
  subject : String
  version : Nat
  schema_type : SchemaType
  schema : String
deriving DecidableEq

/-- `struct SchemaReference` from `types.rs`. -/
structure SchemaReference where
  name : String
  subject : String
  version : Nat
deriving DecidableEq

/-- `struct UnregisteredSchema` from `types.rs`. -/
structure UnregisteredSchema where
  schema : String
  schema_type : SchemaType
  references : Option (List SchemaReference)
deriving DecidableEq

/-- `struct RegisteredSchema` from `types.rs`: the registry's response to a
register request carries only the assigned id. -/
structure RegisteredSchema where
  id : Nat
deriving DecidableEq

/-- `enum HttpCallError` with the variants used by `cached.rs`
(`parse_response`): a JSON parse failure, a non-2xx upstream response, or a
transport error. -/
inductive HttpCallError where
  | JsonParse (body : String) (target : String)
  | UpstreamError (url : String) (status : Nat) (body : String)
  | Generic (msg : String)
deriving DecidableEq

/-- `enum ConfigurationError` from `error.rs`. -/
inductive ConfigurationError where
  | InvalidHeaderName (name : String)
  | InvalidHeaderValue (value : String)
  | Io (msg : String)
  | Proxy (url : String)
deriving DecidableEq

/-- `enum SchemaRegistryError` from `error.rs`. -/
inductive SchemaRegistryError where
  | Configuration (e : ConfigurationError)
  | HttpCall (e : HttpCallError)
deriving DecidableEq

/-- `enum Authentication` from `config.rs`. -/
inductive Authentication where
  | Bearer (token : String)
  | Basic (username : String) (password : Option String)
deriving DecidableEq

/-- `struct SchemaRegistryConfig` from `config.rs`; the header map is kept
as an association list. -/
structure SchemaRegistryConfig where
  urls : List String
  authentication : Option Authentication
  proxy : Option String
  headers : Option (List (String × String))
deriving DecidableEq

/-- `SchemaRegistryConfig::new()` — the `Default` instance. -/
def SchemaRegistryConfig.new : SchemaRegistryConfig := ⟨[], none, none, none⟩

/-- `pub fn url`: push one url onto the list. -/
def SchemaRegistryConfig.url (c : SchemaRegistryConfig) (u : String) :
    SchemaRegistryConfig :=
  { c with urls := c.urls ++ [u] }

/-- `pub fn basic_auth`: when authentication is already set, only a warning
is logged (no state change at that point); when the username converts to
`None`, a warning is logged and `self` is returned unchanged; otherwise the
authentication field is set to `Basic`. -/
def SchemaRegistryConfig.basic_auth (c : SchemaRegistryConfig)
    (username password : Option String) : SchemaRegistryConfig :=
  match username with
  | none => c
  | some u => { c with authentication := some (.Basic u password) }

/-- `pub fn bearer_auth`: same shape as `basic_auth` with a bearer token. -/
def SchemaRegistryConfig.bearer_auth (c : SchemaRegistryConfig)
    (token : Option String) : SchemaRegistryConfig :=
  match token with
  | none => c
  | some t => { c with authentication := some (.Bearer t) }

/-- External primitives of `client/util.rs`: reqwest's
`HeaderName::from_str`, `HeaderValue::from_str`, `Proxy::all`, and the
assembly of the `Authorization` header value by `build_auth_headers`
(base64 of user:password, or the bearer token). `none` models a parse
failure of the respective input. -/
structure HttpPrims where
  parseHeaderName : String → Option String
  parseHeaderValue : String → Option String
  parseProxy : String → Option String
  authHeader : Authentication → Option (String × String)

/-- `pub fn build_headers`: parse every configured (name, value) pair,
failing on the first invalid header name or value. -/
def build_headers (prims : HttpPrims) :
    List (String × String) → Except ConfigurationError (List (String × String))
  | [] => .ok []
  | (n, v) :: rest =>
    match prims.parseHeaderName n with
    | none => .error (.InvalidHeaderName n)
    | some pn =>
      match prims.parseHeaderValue v with
      | none => .error (.InvalidHeaderValue v)
      | some pv =>
        match build_headers prims rest with
        | .error e => .error e
        | .ok hs => .ok ((pn, pv) :: hs)

/-- The observable configuration of the built `reqwest::Client`. -/
structure HttpClient where
  default_headers : List (String × String)
  proxy : Option String
deriving DecidableEq

/-- The default-header base of `build_http_client`: empty when no header
map is configured, else the parsed header map. -/
def build_base_headers (prims : HttpPrims) (conf : SchemaRegistryConfig) :
    Except ConfigurationError (List (String × String)) :=
  match conf.headers with
  | none => .ok []
  | some hs => build_headers prims hs

/-- The authentication step of `build_http_client`: materialize the
configured authentication into one more default header; a failure to build
the header value is a configuration error. -/
def add_auth_header (prims : HttpPrims) (conf : SchemaRegistryConfig)
    (base : List (String × String)) :
    Except ConfigurationError (List (String × String)) :=
  match conf.authentication with
  | none => .ok base
  | some auth =>
    match prims.authHeader auth with
    | none => .error (.InvalidHeaderValue "authorization")
    | some h => .ok (base ++ [h])

/-- `pub fn build_proxy` applied to the optional configured proxy url. -/
def build_proxy (prims : HttpPrims) (conf : SchemaRegistryConfig) :
    Except ConfigurationError (Option String) :=
  match conf.proxy with
  | none => .ok none
  | some p =>
    match prims.parseProxy p with
    | none => .error (.Proxy p)
    | some pp => .ok (some pp)

/-- `pub fn build_http_client`: default headers from the configured map,
then the authentication header, then the proxy. The final
`ClientBuilder::build()` is environmental (TLS setup) and modeled as always
succeeding. The url list is never inspected. -/
def build_http_client (prims : HttpPrims) (conf : SchemaRegistryConfig) :
    Except ConfigurationError HttpClient :=
  match build_base_headers prims conf with
  | .error e => .error e
  | .ok base =>
    match add_auth_header prims conf base with
    | .error e => .error e
    | .ok with_auth =>
      match build_proxy prims conf with
      | .error e => .error e
      | .ok pp => .ok ⟨with_auth, pp⟩

/-- `struct CachedSchemaRegistryClient`: the urls, the built HTTP client
and the two caches, embedded as association lists (an insert conses the
new binding, lookup returns the most recent one). -/
structure CachedSchemaRegistryClient where
  urls : List String
  http : HttpClient
  id_cache : List (Nat × Schema)
  subject_cache : List (String × Nat)
deriving DecidableEq

/-- `pub fn from_conf`: build the HTTP client from the configuration and
start with empty caches; a build failure surfaces as a configuration
error. -/
def from_conf (prims : HttpPrims) (conf : SchemaRegistryConfig) :
    Except SchemaRegistryError CachedSchemaRegistryClient :=
  match build_http_client prims conf with
  | .error e => .error (.Configuration e)
  | .ok http => .ok ⟨conf.urls, http, [], []⟩

/-- `pub async fn check_id_cache`. -/
def check_id_cache (c : CachedSchemaRegistryClient) (id : Nat) : Option Schema :=
  c.id_cache.lookup id

/-- `pub async fn check_subject_cache`. -/
def check_subject_cache (c : CachedSchemaRegistryClient) (subject : String) :
    Option Nat :=
  c.subject_cache.lookup subject

/-- `pub async fn insert_id_cache`. -/
def insert_id_cache (c : CachedSchemaRegistryClient) (id : Nat) (schema : Schema) :
    CachedSchemaRegistryClient :=
  { c with id_cache := (id, schema) :: c.id_cache }

/-- `pub async fn insert_subject_cache`: update the id cache with the
subject's schema, then key the subject cache by the canonical subject name
carried in the registry's `Subject` response. -/
def insert_subject_cache (c : CachedSchemaRegistryClient) (subj : Subject) :
    CachedSchemaRegistryClient :=
  let c := insert_id_cache c subj.id ⟨subj.schema_type, subj.schema⟩
  { c with subject_cache := (subj.subject, subj.id) :: c.subject_cache }

/-- `async fn exec_http_calls` = `futures::future::select_ok` over the
raced replica requests followed by dropping the remaining in-flight
futures. The argument lists the results of the raced requests in
completion order; `select_ok` returns the first success, removes a failed
future and keeps waiting, and returns the error of the last future once
every future has failed. An empty race (no urls) panics in the source and
is modeled as `none`. -/
def exec_http_calls {T : Type} :
    List (Except HttpCallError T) → Option (Except HttpCallError T)
  | [] => none
  | .ok t :: _ => some (.ok t)
  | .error e :: rest => if rest.isEmpty then some (.error e) else exec_http_calls rest

/-- `async fn get_schema_by_id`: return the cached schema when present;
otherwise race the replica GET requests (completion schedule `arrivals`),
cache a successful result under `id` and return it. The third component
counts the HTTP races performed. -/
def get_schema_by_id (c : CachedSchemaRegistryClient)
    (arrivals : List (Except HttpCallError Schema)) (id : Nat) :
    CachedSchemaRegistryClient × Option (Except HttpCallError Schema) × Nat :=
  match check_id_cache c id with
  | some cached => (c, some (.ok cached), 0)
  | none =>
    match exec_http_calls arrivals with
    | none => (c, none, 1)
    | some (.error e) => (c, some (.error e), 1)
    | some (.ok schema) => (insert_id_cache c id schema, some (.ok schema), 1)

/-- `async fn get_schema_by_subject`: on a subject-cache hit delegate to
`get_schema_by_id`; on a miss race the replica requests (completion
schedule `subject_arrivals`), populate both caches via
`insert_subject_cache` and return the `Schema` projection of the received
`Subject`. The `version` only shapes the request url. -/
def get_schema_by_subject (c : CachedSchemaRegistryClient)
    (subject_arrivals : List (Except HttpCallError Subject))
    (id_arrivals : List (Except HttpCallError Schema))
    (subject : String) (version : Version) :
    CachedSchemaRegistryClient × Option (Except HttpCallError Schema) × Nat :=
  match check_subject_cache c subject with
  | some cached => get_schema_by_id c id_arrivals cached
  | none =>
    match exec_http_calls subject_arrivals with
    | none => (c, none, 1)
    | some (.error e) => (c, some (.error e), 1)
    | some (.ok subj) =>
      (insert_subject_cache c subj, some (.ok ⟨subj.schema_type, subj.schema⟩), 1)

/-- `async fn register_schema` (`cached.rs`): race the replica POST
requests; on success receive the assigned id, build the `Schema` from the
submitted source, insert it into the id cache under that id and return it.
The subject cache is not touched and the `subject` argument only shapes
the request url. -/
def register_schema (c : CachedSchemaRegistryClient)
    (arrivals : List (Except HttpCallError RegisteredSchema))
    (subject : String) (unregistered : UnregisteredSchema) :
    CachedSchemaRegistryClient × Option (Except HttpCallError Schema) × Nat :=
  match exec_http_calls arrivals with
  | none => (c, none, 1)
  | some (.error e) => (c, some (.error e), 1)
  | some (.ok registered) =>
    let schema : Schema := ⟨unregistered.schema_type, unregistered.schema⟩
    (insert_id_cache c registered.id schema, some (.ok schema), 1)

/-- Success test on an `Except` value (`Result::is_ok`). -/
def except_is_ok {ε α : Type} : Except ε α → Bool
  | .ok _ => true
  | .error _ => false

/-- Specification-side validity predicate for `from_conf`, written from the
spec's words: every configured header name and value parses, the
authentication header can be built, and the proxy url parses. The spec
additionally demands a non-empty url list; `config_valid` deliberately
mirrors what the code checks, and the C9 theorems compare the two. -/
def config_valid (prims : HttpPrims) (conf : SchemaRegistryConfig) : Bool :=
  ((conf.headers.getD []).all fun p =>
      (prims.parseHeaderName p.1).isSome && (prims.parseHeaderValue p.2).isSome) &&
  (match conf.authentication with
   | none => true
   | some a => (prims.authHeader a).isSome) &&
  (match conf.proxy with
   | none => true
   | some p => (prims.parseProxy p).isSome)

theorem exec_http_calls_cons_error {T : Type} (e : HttpCallError)
    (l : List (Except HttpCallError T)) (h : l ≠ []) :
    exec_http_calls (.error e :: l) = exec_http_calls l := by
  cases l with
  | nil => exact absurd rfl h
  | cons y ys => rfl

theorem build_headers_isOk_eq (prims : HttpPrims) (hs : List (String × String)) :
    except_is_ok (build_headers prims hs) =
      hs.all (fun p => (prims.parseHeaderName p.1).isSome &&
        (prims.parseHeaderValue p.2).isSome) := by
  induction hs with
  | nil => rfl
  | cons p rest ih =>
    obtain ⟨n, v⟩ := p
    simp only [build_headers, List.all_cons]
    cases hn : prims.parseHeaderName n with
    | none => simp [except_is_ok]
    | some pn =>
      cases hv : prims.parseHeaderValue v with
      | none => simp [except_is_ok]
      | some pv =>
        rw [← ih]
        cases build_headers prims rest <;> simp [except_is_ok]

theorem add_auth_header_isOk_eq (prims : HttpPrims) (conf : SchemaRegistryConfig)
    (base : List (String × String)) :
    except_is_ok (add_auth_header prims conf base) =
      (match conf.authentication with
       | none => true
       | some a => (prims.authHeader a).isSome) := by
  simp only [add_auth_header]
  cases conf.authentication with
  | none => rfl
  | some a =>
    cases h : prims.authHeader a <;> simp [except_is_ok, h]

theorem build_proxy_isOk_eq (prims : HttpPrims) (conf : SchemaRegistryConfig) :
    except_is_ok (build_proxy prims conf) =
      (match conf.proxy with
       | none => true
       | some p => (prims.parseProxy p).isSome) := by
  simp only [build_proxy]
  cases conf.proxy with
  | none => rfl
  | some p =>
    cases h : prims.parseProxy p <;> simp [except_is_ok, h]

theorem build_base_headers_isOk_eq (prims : HttpPrims) (conf : SchemaRegistryConfig) :
    except_is_ok (build_base_headers prims conf) =
      ((conf.headers.getD []).all fun p =>
        (prims.parseHeaderName p.1).isSome && (prims.parseHeaderValue p.2).isSome) := by
  simp only [build_base_headers]
  cases conf.headers with
  | none => rfl
  | some hs => simpa using build_headers_isOk_eq prims hs

theorem build_http_client_isOk_eq (prims : HttpPrims) (conf : SchemaRegistryConfig) :
    except_is_ok (build_http_client prims conf) = config_valid prims conf := by
  simp only [build_http_client, config_valid]
  cases h1 : build_base_headers prims conf with
  | error e =>
    have e1 : ((conf.headers.getD []).all fun p =>
        (prims.parseHeaderName p.1).isSome && (prims.parseHeaderValue p.2).isSome) = false := by
      rw [← build_base_headers_isOk_eq prims conf, h1]
      rfl
    rw [e1]
    simp [except_is_ok, h1]
  | ok base =>
    have e1 : ((conf.headers.getD []).all fun p =>
        (prims.parseHeaderName p.1).isSome && (prims.parseHeaderValue p.2).isSome) = true := by
      rw [← build_base_headers_isOk_eq prims conf, h1]
      rfl
    rw [e1]
    cases h2 : add_auth_header prims conf base with
    | error e =>
      have e2 : (match conf.authentication with
          | none => true
          | some a => (prims.authHeader a).isSome) = false := by
        rw [← add_auth_header_isOk_eq prims conf base, h2]
        rfl
      rw [e2]
      simp [except_is_ok, h1, h2]
    | ok with_auth =>
      have e2 : (match conf.authentication with
          | none => true
          | some a => (prims.authHeader a).isSome) = true := by
        rw [← add_auth_header_isOk_eq prims conf base, h2]
        rfl
      rw [e2]
      cases h3 : build_proxy prims conf with
      | error e =>
        have e3 : (match conf.proxy with
            | none => true
            | some p => (prims.parseProxy p).isSome) = false := by
          rw [← build_proxy_isOk_eq prims conf, h3]
          rfl
        rw [e3]
        simp [except_is_ok, h1, h2, h3]
      | ok pp =>
        have e3 : (match conf.proxy with
            | none => true
            | some p => (prims.parseProxy p).isSome) = true := by
          rw [← build_proxy_isOk_eq prims conf, h3]
          rfl
        rw [e3]
        simp [except_is_ok, h1, h2, h3]

theorem from_conf_isOk_eq (prims : HttpPrims) (conf : SchemaRegistryConfig) :
    except_is_ok (from_conf prims conf) = except_is_ok (build_http_client prims conf) := by
  simp only [from_conf]
  cases build_http_client prims conf <;> rfl

end Client

/-- C3: getSchemaBySubject consults the subject cache first and on a hit
delegates entirely to fetch-by-id on the cached id; on a miss it races the
replica requests and, on success, inserts the schema into the id cache
under the response id and the response's canonical subject name (not the
caller-supplied subject string) into the subject cache, returning the
Schema projection (schemaType, schema) of the response. -/
theorem C3_get_schema_by_subject_behavior (c : Client.CachedSchemaRegistryClient)
    (sa : List (Except Client.HttpCallError Client.Subject))
    (ia : List (Except Client.HttpCallError Client.Schema))
    (subject : String) (version : Client.Version) :
    (∀ i, Client.check_subject_cache c subject = some i →
      Client.get_schema_by_subject c sa ia subject version =
        Client.get_schema_by_id c ia i) ∧
    (∀ subj, Client.check_subject_cache c subject = none →
      Client.exec_http_calls sa = some (.ok subj) →
      Client.get_schema_by_subject c sa ia subject version =
        ({ c with id_cache := (subj.id, ⟨subj.schema_type, subj.schema⟩) :: c.id_cache,
                  subject_cache := (subj.subject, subj.id) :: c.subject_cache },
         some (.ok ⟨subj.schema_type, subj.schema⟩), 1)) := by
  constructor
  · intro i hi
    simp [Client.get_schema_by_subject, hi]
  · intro subj hmiss hrace
    simp [Client.get_schema_by_subject, hmiss, hrace, Client.insert_subject_cache,
      Client.insert_id_cache]

/-- C3 witness: the subject-cache hit at a client whose subject cache
binds "s" to 5, and the miss path at an empty-cache client where the race
returns the canonical subject "canonical" for the requested alias. -/
theorem C3_get_schema_by_subject_behavior_witness :
    (Client.check_subject_cache ⟨["u"], ⟨[], none⟩, [], [("s", 5)]⟩ "s" = some 5 ∧
     Client.get_schema_by_subject ⟨["u"], ⟨[], none⟩, [], [("s", 5)]⟩ [] [] "s" .Latest =
       Client.get_schema_by_id ⟨["u"], ⟨[], none⟩, [], [("s", 5)]⟩ [] 5) ∧
    (Client.check_subject_cache ⟨["u"], ⟨[], none⟩, [], []⟩ "alias" = none ∧
     Client.exec_http_calls
       [(.ok ⟨1, "canonical", 1, .Avro, "src"⟩ : Except Client.HttpCallError Client.Subject)] =
       some (.ok ⟨1, "canonical", 1, .Avro, "src"⟩) ∧
     Client.get_schema_by_subject ⟨["u"], ⟨[], none⟩, [], []⟩
         [.ok ⟨1, "canonical", 1, .Avro, "src"⟩] [] "alias" .Latest =
       (⟨["u"], ⟨[], none⟩, [(1, ⟨.Avro, "src"⟩)], [("canonical", 1)]⟩,
        some (.ok ⟨.Avro, "src"⟩), 1)) := by
  constructor
  · exact ⟨rfl, (C3_get_schema_by_subject_behavior _ [] [] "s" .Latest).1 5 rfl⟩
  · refine ⟨rfl, rfl, ?_⟩
    have h := (C3_get_schema_by_subject_behavior ⟨["u"], ⟨[], none⟩, [], []⟩
      [.ok ⟨1, "canonical", 1, .Avro, "src"⟩] [] "alias" .Latest).2
      ⟨1, "canonical", 1, .Avro, "src"⟩ rfl rfl
    exact h

/-- C4 counterexample: two register runs that differ only in the id the
registry assigns (1 against 2) produce identical caller-visible results
(the second and third components: the returned value and the race count),
so the return value of register_schema cannot carry the assigned numeric
id — the claim that registerSchema returns both the id and the Schema is
false; it returns only the Schema. -/
theorem C4_register_returns_no_id_counterexample :
    (Client.register_schema ⟨["u"], ⟨[], none⟩, [], []⟩
        [.ok ⟨1⟩] "subj" ⟨"src", .Avro, none⟩).2 =
      (Client.register_schema ⟨["u"], ⟨[], none⟩, [], []⟩
        [.ok ⟨2⟩] "subj" ⟨"src", .Avro, none⟩).2 ∧
    (1 : Nat) ≠ 2 := by
  exact ⟨rfl, by decide⟩

/-- C4 (amended): a successful registerSchema returns the Schema built
from the submitted source (schemaType, schema) — the registry-assigned id
is inserted into the id cache but is not part of the returned value — and
when the race fails the error is returned. -/
theorem C4_register_schema_result (c : Client.CachedSchemaRegistryClient)
    (arrivals : List (Except Client.HttpCallError Client.RegisteredSchema))
    (subject : String) (u : Client.UnregisteredSchema) :
    (∀ reg, Client.exec_http_calls arrivals = some (.ok reg) →
      Client.register_schema c arrivals subject u =
        (Client.insert_id_cache c reg.id ⟨u.schema_type, u.schema⟩,
         some (.ok ⟨u.schema_type, u.schema⟩), 1)) ∧
    (∀ e, Client.exec_http_calls arrivals = some (.error e) →
      Client.register_schema c arrivals subject u = (c, some (.error e), 1)) := by
  constructor
  · intro reg hreg
    simp [Client.register_schema, hreg]
  · intro e he
    simp [Client.register_schema, he]

/-- C4 witness: a register whose race assigns id 7 returns the submitted
(Avro, "src") schema and caches it under 7. -/
theorem C4_register_schema_result_witness :
    Client.exec_http_calls
      [(.ok ⟨7⟩ : Except Client.HttpCallError Client.RegisteredSchema)] = some (.ok ⟨7⟩) ∧
    Client.register_schema ⟨["u"], ⟨[], none⟩, [], []⟩ [.ok ⟨7⟩] "subj" ⟨"src", .Avro, none⟩ =
      (Client.insert_id_cache ⟨["u"], ⟨[], none⟩, [], []⟩ 7 ⟨.Avro, "src"⟩,
       some (.ok ⟨.Avro, "src"⟩), 1) :=
  ⟨rfl, (C4_register_schema_result ⟨["u"], ⟨[], none⟩, [], []⟩ [.ok ⟨7⟩] "subj"
    ⟨"src", .Avro, none⟩).1 ⟨7⟩ rfl⟩

/-- C5: after a successful register whose race assigned id `reg.id`, the
new client state differs from the old only by the one id-cache binding of
the submitted schema — the subject cache is unchanged — and a subsequent
getSchemaById on that id answers from the cache with that schema and with
zero HTTP races, for every completion schedule. -/
theorem C5_register_frame_effect (c : Client.CachedSchemaRegistryClient)
    (arrivals : List (Except Client.HttpCallError Client.RegisteredSchema))
    (subject : String) (u : Client.UnregisteredSchema) (reg : Client.RegisteredSchema)
    (h : Client.exec_http_calls arrivals = some (.ok reg)) :
    (Client.register_schema c arrivals subject u).1 =
      { c with id_cache := (reg.id, ⟨u.schema_type, u.schema⟩) :: c.id_cache } ∧
    ((Client.register_schema c arrivals subject u).1).subject_cache = c.subject_cache ∧
    (∀ arrivals2,
      Client.get_schema_by_id (Client.register_schema c arrivals subject u).1 arrivals2 reg.id =
        ((Client.register_schema c arrivals subject u).1,
         some (.ok ⟨u.schema_type, u.schema⟩), 0)) := by
  refine ⟨?_, ?_, ?_⟩ <;>
    simp [Client.register_schema, h, Client.insert_id_cache, Client.get_schema_by_id,
      Client.check_id_cache, List.lookup]

/-- C5 witness: register id 7 at an empty-cache client, then read id 7
back from the cache with zero HTTP races. -/
theorem C5_register_frame_effect_witness :
    Client.exec_http_calls
      [(.ok ⟨7⟩ : Except Client.HttpCallError Client.RegisteredSchema)] = some (.ok ⟨7⟩) ∧
    ((Client.register_schema ⟨["u"], ⟨[], none⟩, [], []⟩ [.ok ⟨7⟩] "subj"
        ⟨"src", .Avro, none⟩).1).subject_cache = [] ∧
    Client.get_schema_by_id
        (Client.register_schema ⟨["u"], ⟨[], none⟩, [], []⟩ [.ok ⟨7⟩] "subj"
          ⟨"src", .Avro, none⟩).1 [.error (.Generic "offline")] 7 =
      ((Client.register_schema ⟨["u"], ⟨[], none⟩, [], []⟩ [.ok ⟨7⟩] "subj"
          ⟨"src", .Avro, none⟩).1,
       some (.ok ⟨.Avro, "src"⟩), 0) := by
  have h := C5_register_frame_effect ⟨["u"], ⟨[], none⟩, [], []⟩ [.ok ⟨7⟩] "subj"
    ⟨"src", .Avro, none⟩ ⟨7⟩ rfl
  exact ⟨rfl, h.2.1, h.2.2 [.error (.Generic "offline")]⟩

/-- C6: over any completion schedule whose earlier arrivals all failed,
the race returns the first successful arrival, arrivals after the first
success are dropped (they do not affect the result), and when every
request fails the error of the last-resolving request is returned. -/
theorem C6_select_ok_semantics {T : Type} (pre post : List (Except Client.HttpCallError T))
    (hpre : ∀ x ∈ pre, ∃ e, x = .error e) :
    (∀ t, Client.exec_http_calls (pre ++ .ok t :: post) = some (.ok t)) ∧
    (∀ t, Client.exec_http_calls (pre ++ .ok t :: post) =
      Client.exec_http_calls (pre ++ [.ok t])) ∧
    (∀ e, Client.exec_http_calls (pre ++ [.error e]) = some (.error e)) := by
  induction pre with
  | nil => exact ⟨fun t => rfl, fun t => rfl, fun e => rfl⟩
  | cons x rest ih =>
    obtain ⟨e0, rfl⟩ := hpre x (List.mem_cons_self x rest)
    obtain ⟨ih1, ih2, ih3⟩ := ih (fun y hy => hpre y (List.mem_cons_of_mem _ hy))
    refine ⟨fun t => ?_, fun t => ?_, fun e => ?_⟩
    · rw [List.cons_append, Client.exec_http_calls_cons_error e0 _ (by simp), ih1 t]
    · rw [List.cons_append, List.cons_append,
        Client.exec_http_calls_cons_error e0 _ (by simp),
        Client.exec_http_calls_cons_error e0 _ (by simp), ih2 t]
    · rw [List.cons_append, Client.exec_http_calls_cons_error e0 _ (by simp), ih3 e]

/-- C6 witness: one early failure followed by two successes returns the
first success (the later success is dropped), and two failures return the
last error. -/
theorem C6_select_ok_semantics_witness :
    (∀ x ∈ [(.error (.Generic "boom") : Except Client.HttpCallError Client.Schema)],
      ∃ e, x = .error e) ∧
    Client.exec_http_calls
      [(.error (.Generic "boom") : Except Client.HttpCallError Client.Schema),
       .ok ⟨.Avro, "a"⟩, .ok ⟨.Json, "b"⟩] = some (.ok ⟨.Avro, "a"⟩) ∧
    Client.exec_http_calls
      [(.error (.Generic "boom") : Except Client.HttpCallError Client.Schema),
       .error (.Generic "late")] = some (.error (.Generic "late")) := by
  have hpre : ∀ x ∈ [(.error (.Generic "boom") : Except Client.HttpCallError Client.Schema)],
      ∃ e, x = .error e := by
    intro x hx
    rw [List.mem_singleton] at hx
    exact ⟨.Generic "boom", hx⟩
  have h := C6_select_ok_semantics [.error (.Generic "boom")] [.ok ⟨.Json, "b"⟩] hpre
  exact ⟨hpre, h.1 ⟨.Avro, "a"⟩, h.2.2 (.Generic "late")⟩

/-- C9 counterexample: with primitives that accept every input, from_conf
succeeds on the configuration whose url list is empty — construction never
checks that at least one url is present, contradicting the claim that it
fails with a configuration error in that case. -/
theorem C9_from_conf_empty_urls_counterexample :
    Client.from_conf
        ⟨fun s => some s, fun s => some s, fun s => some s,
         fun _ => some ("authorization", "v")⟩
        ⟨[], none, none, none⟩ =
      .ok ⟨[], ⟨[], none⟩, [], []⟩ ∧
    (⟨[], none, none, none⟩ : Client.SchemaRegistryConfig).urls = [] :=
  ⟨rfl, rfl⟩

/-- C9 (amended): from_conf validates the configured headers, the
authentication header and the proxy — it succeeds exactly when every
header name and value parses, the authentication header can be built and
the proxy url parses — and it never inspects the url list: its success is
unchanged under replacing the urls (in particular by the empty list), and
on success the client carries the configured urls verbatim with empty
caches. -/
theorem C9_from_conf_validation (prims : Client.HttpPrims)
    (conf : Client.SchemaRegistryConfig) :
    Client.except_is_ok (Client.from_conf prims conf) = Client.config_valid prims conf ∧
    (∀ urls2, Client.except_is_ok (Client.from_conf prims { conf with urls := urls2 }) =
      Client.except_is_ok (Client.from_conf prims conf)) ∧
    (∀ cl, Client.from_conf prims conf = .ok cl →
      cl.urls = conf.urls ∧ cl.id_cache = [] ∧ cl.subject_cache = []) := by
  refine ⟨?_, ?_, ?_⟩
  · rw [Client.from_conf_isOk_eq, Client.build_http_client_isOk_eq]
  · intro urls2
    rw [Client.from_conf_isOk_eq, Client.from_conf_isOk_eq,
      Client.build_http_client_isOk_eq, Client.build_http_client_isOk_eq]
    rfl
  · intro cl hcl
    simp only [Client.from_conf] at hcl
    cases hb : Client.build_http_client prims conf with
    | error e =>
      rw [hb] at hcl
      simp at hcl
    | ok http =>
      rw [hb] at hcl
      simp at hcl
      rw [← hcl]
      exact ⟨rfl, rfl, rfl⟩

/-- C10: basic_auth with a username converting to None, and bearer_auth
with a token converting to None, return the configuration unchanged — the
authentication field is exactly what it was before the call, so any
previously configured authentication is kept and no error is produced. -/
theorem C10_auth_none_is_noop (c : Client.SchemaRegistryConfig)
    (password : Option String) :
    c.basic_auth none password = c ∧
    c.bearer_auth none = c ∧
    (c.basic_auth none password).authentication = c.authentication ∧
    (c.bearer_auth none).authentication = c.authentication :=
  ⟨rfl, rfl, rfl, rfl⟩

namespace JsonSerde

/-- The JSON value kinds of `serde_json::Value` as matched by the error
conversion in `schema-registry-serde-json/src/error.rs`. -/
inductive JsonValueKind where
  | null
  | boolean
  | number
  | str
  | array
  | object
deriving DecidableEq

/-- The received-kind name emitted by the error conversion. -/
def kind_name : JsonValueKind → String
  | .null => "null"
  | .boolean => "boolean"
  | .number => "number"
  | .str => "string"
  | .array => "array"
  | .object => "object"

/-- `jsonschema::paths::PathChunk`. -/
inductive PathChunk where
  | Property (p : String)
  | Index (i : Nat)
  | Keyword (k : String)
deriving DecidableEq

/-- The string a path chunk contributes to the dot-joined location. -/
def chunk_str : PathChunk → String
  | .Property p => p
  | .Index i => toString i
  | .Keyword k => k

/-- A jsonschema `ValidationError` as the conversion observes it: the kind
of the offending instance, the description of the expected kind (the
`format!` rendering of `error.kind`), and the schema location chunks. -/
structure ValidationErrorModel where
  instance_kind : JsonValueKind
  kind_desc : String
  schema_path : List PathChunk
deriving DecidableEq

/-- `struct SchemaValidationError` from `error.rs`; the source field `at`
is a Lean keyword and is kept as `at_`. -/
structure SchemaValidationError where
  received : String
  expected : String
  at_ : String
deriving DecidableEq

/-- `From<ValidationError> for SchemaValidationError` (`error.rs` lines
52-80): received is the kind name of the instance, expected the kind
description, and the path is dot-joined from the schema location
chunks. -/
def schema_validation_error_from (e : ValidationErrorModel) : SchemaValidationError :=
  ⟨kind_name e.instance_kind, e.kind_desc,
   String.intercalate "." (e.schema_path.map chunk_str)⟩

/-- What a caller of the serializer observes: framed bytes, a returned
registry error, or a process panic. -/
inductive SerializeOutcome where
  | ok (bytes : List Nat)
  | registry_error (e : Client.SchemaRegistryError)
  | panicked (msg : String)
deriving DecidableEq

/-- The `Schema` revision the JSON serializer works with (it reads
`schema.id` after the subject fetch). -/
structure JsonSchema where
  id : Nat
  schema : String
deriving DecidableEq

/-- `serialize_value` of `SchemaRegistryJsonSerializer`
(`schema-registry-serde-json/src/serializer.rs` lines 30-62), with the
external collaborators as inputs: `fetch` is the result of
`get_schema_by_subject(strategy.value(), Latest)`, `validation_errors`
the failures `compiled_schema.validate` reports on the JSON tree of the
value (empty when validation passes), and `encoded` the compact JSON
bytes of the tree; the parse/compile/to_value `unwrap`s are presupposed
successful. On a fetch error the error is returned; when validation
reports failures the code prints each one and panics with
"Validation error"; otherwise it frames the encoded bytes with the schema
id. -/
def serialize_value (fetch : Except Client.SchemaRegistryError JsonSchema)
    (validation_errors : List ValidationErrorModel)
    (encoded : List Nat) : SerializeOutcome :=
  match fetch with
  | .error e => .registry_error e
  | .ok schema =>
    if validation_errors.isEmpty then
      .ok (Payload.insert_magic_byte_and_id schema.id encoded)
    else
      .panicked "Validation error"

end JsonSerde

/-- C7: at a failing input — subject fetch successful, one validation
failure whose instance is a string where an integer was expected at the
schema location properties.age.type — the JSON serializer panics with
"Validation error" instead of returning a SchemaValidation error listing
the failures; the error-shape conversion of `error.rs` (unused on this
path) does produce exactly the claimed shape for that failure. -/
theorem C7_json_serializer_panics_on_validation_failure :
    JsonSerde.serialize_value (.ok ⟨1, "schema-src"⟩)
        [⟨.str, "integer", [.Property "properties", .Property "age", .Keyword "type"]⟩]
        [] = .panicked "Validation error" ∧
    JsonSerde.schema_validation_error_from
        ⟨.str, "integer", [.Property "properties", .Property "age", .Keyword "type"]⟩ =
      ⟨"string", "integer", "properties.age.type"⟩ :=
  ⟨rfl, rfl⟩

namespace AvroSerde

/-- The `Schema` revision the Avro codec works with: it carries the
registry id and the declared references (`schema.id`,
`schema.references` in `serializer.rs`). -/
structure AvroSchemaRec where
  id : Nat
  schema : String
  references : Option (List Client.SchemaReference)
deriving DecidableEq

/-- The reference-resolution loop of `serialize_value`
(`schema-registry-serde-avro/src/serializer.rs` lines 49-58): fetch every
declared reference by `(reference.subject, Version::Number(version))`, in
declaration order, propagating a fetch failure. -/
def resolve_reference_schemas
    (fetch_by_subject : String → Client.Version → Option AvroSchemaRec) :
    List Client.SchemaReference → Option (List AvroSchemaRec)
  | [] => some []
  | r :: rest =>
    match fetch_by_subject r.subject (.Number r.version) with
    | none => none
    | some s =>
      match resolve_reference_schemas fetch_by_subject rest with
      | none => none
      | some others => some (s :: others)

/-- The schema-source list `serialize_value` hands to
`AvroSchema::parse_list`: the resolved reference schemas in declaration
order, then the root schema (fetched at `Version::Latest`) last; the last
parsed schema becomes the writer schema and the earlier ones the schemata
available by name. -/
def serializer_schema_sources
    (fetch_by_subject : String → Client.Version → Option AvroSchemaRec)
    (subject : String) : Option (List String) :=
  match fetch_by_subject subject .Latest with
  | none => none
  | some root =>
    match (match root.references with
           | none => some []
           | some refs => resolve_reference_schemas fetch_by_subject refs) with
    | none => none
    | some refs => some ((refs.map (fun s => s.schema)) ++ [root.schema])

/-- The deserializer's own header extraction
(`schema-registry-serde-avro/src/deserializer.rs` lines 62-80): requires
more than 4 bytes and the magic byte, conflating the failure cases into
message strings. -/
def avro_extract_id_and_payload (data : Option (List Nat)) :
    Except String Payload.Extracted :=
  match data with
  | none => .error "empty payload"
  | some p =>
    if 4 < p.length ∧ p.getD 0 0 = 0 then
      .ok ⟨Payload.u32_from_be_bytes (p.getD 1 0) (p.getD 2 0) (p.getD 3 0) (p.getD 4 0),
           p.drop 5⟩
    else .error "invalid payload"

/-- The schema sources the Avro deserializer parses for a framed input
(`deserializer.rs` lines 39-59): extract the header, fetch the schema by
the extracted id, and parse exactly that one schema with
`AvroSchema::parse_str` — no declared reference is fetched, and
`from_avro_datum` is then called with `None` for the additional
schemata. -/
def deserializer_schema_sources (fetch_by_id : Nat → Option AvroSchemaRec)
    (data : Option (List Nat)) : Option (List String) :=
  match avro_extract_id_and_payload data with
  | .error _ => none
  | .ok ex =>
    match fetch_by_id ex.schema_id with
    | none => none
    | some root => some [root.schema]

end AvroSerde

/-- C8 counterexample: on a registry where schema id 1 ("root-src")
declares one reference to author-value version 1 ("author-src"), the
serializer's parse list is [author-src, root-src] while the deserializer,
given the framed input with id 1, parses only [root-src] — so the
deserializer does not fetch and parse the declared references the way the
serializer does, contrary to the claim. -/
theorem C8_deserializer_skips_references_counterexample :
    AvroSerde.deserializer_schema_sources
        (fun id => if id = 1 then
          some ⟨1, "root-src", some [⟨"Author", "author-value", 1⟩]⟩ else none)
        (some (Payload.insert_magic_byte_and_id 1 [])) = some ["root-src"] ∧
    AvroSerde.serializer_schema_sources
        (fun s v =>
          if s = "book-value" ∧ v = .Latest then
            some ⟨1, "root-src", some [⟨"Author", "author-value", 1⟩]⟩
          else if s = "author-value" ∧ v = .Number 1 then
            some ⟨2, "author-src", none⟩
          else none)
        "book-value" = some ["author-src", "root-src"] ∧
    (some ["root-src"] : Option (List String)) ≠ some ["author-src", "root-src"] := by
  refine ⟨rfl, rfl, by decide⟩

/-- C8 (amended): the Avro deserializer extracts the header and fetches
the schema by the extracted id, but resolves no references: whatever the
fetched schema declares, it parses exactly that one schema source and
decodes with no additional schemata. -/
theorem C8_deserializer_parses_root_only
    (fetch_by_id : Nat → Option AvroSerde.AvroSchemaRec)
    (data : Option (List Nat)) (ex : Payload.Extracted)
    (root : AvroSerde.AvroSchemaRec)
    (h1 : AvroSerde.avro_extract_id_and_payload data = .ok ex)
    (h2 : fetch_by_id ex.schema_id = some root) :
    AvroSerde.deserializer_schema_sources fetch_by_id data = some [root.schema] := by
  simp [AvroSerde.deserializer_schema_sources, h1, h2]

/-- C8 witness: the amended behavior at the framed input with id 1 on the
one-reference registry of the counterexample. -/
theorem C8_deserializer_parses_root_only_witness :
    AvroSerde.avro_extract_id_and_payload
      (some (Payload.insert_magic_byte_and_id 1 [])) = .ok ⟨1, []⟩ ∧
    (fun id => if id = 1 then
        some (⟨1, "root-src", some [⟨"Author", "author-value", 1⟩]⟩ :
          AvroSerde.AvroSchemaRec) else none) 1 =
      some ⟨1, "root-src", some [⟨"Author", "author-value", 1⟩]⟩ ∧
    AvroSerde.deserializer_schema_sources
        (fun id => if id = 1 then
          some ⟨1, "root-src", some [⟨"Author", "author-value", 1⟩]⟩ else none)
        (some (Payload.insert_magic_byte_and_id 1 [])) = some ["root-src"] := by
  refine ⟨rfl, rfl, ?_⟩
  exact C8_deserializer_parses_root_only _ _ ⟨1, []⟩
    ⟨1, "root-src", some [⟨"Author", "author-value", 1⟩]⟩ rfl rfl

/-- C9 witness: the amended characterization evaluated at all-accepting
primitives and a one-url configuration, discharging the success hypothesis
of the projection conjunct at the concretely built client. -/
theorem C9_from_conf_validation_witness :
    Client.from_conf
        ⟨fun s => some s, fun s => some s, fun s => some s,
         fun _ => some ("authorization", "v")⟩
        ⟨["u1"], none, none, none⟩ =
      .ok ⟨["u1"], ⟨[], none⟩, [], []⟩ ∧
    ((⟨["u1"], ⟨[], none⟩, [], []⟩ : Client.CachedSchemaRegistryClient).urls = ["u1"] ∧
     (⟨["u1"], ⟨[], none⟩, [], []⟩ : Client.CachedSchemaRegistryClient).id_cache = [] ∧
     (⟨["u1"], ⟨[], none⟩, [], []⟩ : Client.CachedSchemaRegistryClient).subject_cache = []) :=
  ⟨rfl,
   (C9_from_conf_validation
     ⟨fun s => some s, fun s => some s, fun s => some s,
      fun _ => some ("authorization", "v")⟩
     ⟨["u1"], none, none, none⟩).2.2 ⟨["u1"], ⟨[], none⟩, [], []⟩ rfl⟩
